import Mathlib

/-!
# Book catalogue (`src/scripts.js`): a shallow embedding

The script renders a paginated, filterable list of books into a document
tree.  The document tree is modelled by the record `Dom`, holding exactly the
nodes and properties the script writes; the two closure variables of `init`
(`page`, `matches`) form the view state `App`.  Every handler registered by
the script is a function on these records.

Conventions.

* JavaScript strings are modelled by `String`; the characters of a string are
  its code points.
* `String.prototype.toLowerCase`, the stringified look-up `authors[id]` and
  the stringified `new Date(published).getFullYear()` are host or data
  functions that are not part of `src/scripts.js`; they are fields of `Env`,
  as are the imported constants `books` and `BOOKS_PER_PAGE`.
* Array lengths, `page` and `BOOKS_PER_PAGE` are natural numbers; the
  subtraction inside `Math.max` is carried out in `Int`.
-/

namespace BookConnect

/-! ## Data model -/

/-- A book record of `data.js`, with the fields the script reads. -/
structure Book where
  id : String
  author : String
  image : String
  title : String
  description : String
  published : String
  genres : List String
  deriving DecidableEq, Repr

/-- The object built from the search form (`Object.fromEntries(formData)`). -/
structure Filters where
  title : String
  author : String
  genre : String
  deriving DecidableEq, Repr

/-- The imports of `./data.js` and the host functions the script calls. -/
structure Env where
  /-- `books` -/
  books : List Book
  /-- the text that the template literal makes of `authors[id]` -/
  authors : String → String
  /-- `BOOKS_PER_PAGE` -/
  BOOKS_PER_PAGE : Nat
  /-- `String.prototype.toLowerCase` -/
  toLowerCase : String → String
  /-- the text that the template literal makes of
  `new Date(published).getFullYear()` -/
  getFullYear : String → String
  /-- `Object.entries(genres)` -/
  genreEntries : List (String × String)
  /-- `Object.entries(authors)` -/
  authorEntries : List (String × String)

/-! ## Strings -/

/-- ECMAScript `WhiteSpace` and `LineTerminator` code points, the characters
that `String.prototype.trim` strips. -/
def isTrimChar (c : Char) : Bool :=
  let n := c.toNat
  n == 0x9 || n == 0xA || n == 0xB || n == 0xC || n == 0xD || n == 0x20 ||
  n == 0xA0 || n == 0x1680 || (0x2000 ≤ n && n ≤ 0x200A) || n == 0x2028 ||
  n == 0x2029 || n == 0x202F || n == 0x205F || n == 0x3000 || n == 0xFEFF

/-- `String.prototype.trim` on the list of characters. -/
def trimChars (cs : List Char) : List Char :=
  ((cs.dropWhile isTrimChar).reverse.dropWhile isTrimChar).reverse

/-- `s.trim()` -/
def trim (s : String) : String := ⟨trimChars s.data⟩

/-- Does the list `hay` start with the list `needle`? -/
def startsWithChars : List Char → List Char → Bool
  | _, [] => true
  | [], _ :: _ => false
  | h :: hs, n :: ns => h == n && startsWithChars hs ns

/-- Does `needle` occur in `hay` as a contiguous run of characters? -/
def includesChars : List Char → List Char → Bool
  | [], needle => needle.isEmpty
  | h :: hs, needle => startsWithChars (h :: hs) needle || includesChars hs needle

/-- `hay.includes(needle)` -/
def includes (hay needle : String) : Bool := includesChars hay.data needle.data

/-- ASCII lower-casing, the restriction of `toLowerCase` to ASCII text; used
to instantiate `Env.toLowerCase` on concrete ASCII inputs. -/
def asciiLower (s : String) : String := ⟨s.data.map Char.toLower⟩

/-! ## The filter of `updateList` -/

/-- The loop over `book.genres` in the filter callback: `m` is `genreMatch`;
the loop stops at the first iteration that finds it set. -/
def genreLoop (genre : String) : List String → Bool → Bool
  | [], m => m
  | singleGenre :: rest, m =>
    if m then m
    else genreLoop genre rest (if singleGenre = genre then true else m)

/-- The callback passed to `books.filter` in `updateList`. -/
def filterCallback (env : Env) (filters : Filters) (book : Book) : Bool :=
  let genreMatch := genreLoop filters.genre book.genres (filters.genre == "any")
  (trim filters.title == "" ||
      includes (env.toLowerCase book.title) (env.toLowerCase filters.title)) &&
    (filters.author == "any" || book.author == filters.author) &&
    genreMatch

/-- The constant `result` of `updateList`. -/
def filterResult (env : Env) (filters : Filters) (books : List Book) : List Book :=
  books.filter (filterCallback env filters)

/-! ## The document -/

/-- An element made by `document.createElement`, with the properties that
`createPreviewElement` sets. -/
structure Element where
  tagName : String
  classList : String
  dataPreview : String
  innerHTML : String
  deriving DecidableEq, Repr

/-- The part of the document that the script writes. -/
structure Dom where
  /-- children of `[data-list-items]` -/
  listItems : List Element
  /-- `innerHTML` of `[data-list-button]` -/
  listButtonHTML : String
  /-- `disabled` of `[data-list-button]` -/
  listButtonDisabled : Bool
  /-- `innerHTML` of `[data-search-genres]` -/
  searchGenresHTML : String
  /-- `innerHTML` of `[data-search-authors]` -/
  searchAuthorsHTML : String
  /-- `open` of `[data-search-overlay]` -/
  searchOverlayOpen : Bool
  /-- `open` of `[data-settings-overlay]` -/
  settingsOverlayOpen : Bool
  /-- `open` of `[data-list-active]` -/
  listActiveOpen : Bool
  /-- `src` of `[data-list-blur]` -/
  listBlurSrc : String
  /-- `src` of `[data-list-image]` -/
  listImageSrc : String
  /-- `innerText` of `[data-list-title]` -/
  listTitle : String
  /-- `innerText` of `[data-list-subtitle]` -/
  listSubtitle : String
  /-- `innerText` of `[data-list-description]` -/
  listDescription : String
  /-- the style property `--color-dark` of the root element -/
  colorDark : String
  /-- the style property `--color-light` of the root element -/
  colorLight : String
  deriving DecidableEq, Repr

/-- The text of a piece of markup: the characters outside its tags.  The flag
says whether the scan is inside a tag.  This is `textContent` for markup made
of elements and plain text, which is all the script writes into the button. -/
def stripTags : List Char → Bool → List Char
  | [], _ => []
  | c :: cs, inTag =>
    if inTag then stripTags cs (c != '>')
    else if c == '<' then stripTags cs true
    else c :: stripTags cs false

/-- `textContent` of an element whose `innerHTML` is `html`. -/
def textContent (html : String) : String := ⟨stripTags html.data false⟩

/-! ## The book preview manager -/

/-- `createPreviewElement(book)` -/
def createPreviewElement (env : Env) (book : Book) : Element :=
  { tagName := "button"
    classList := "preview"
    dataPreview := book.id
    innerHTML :=
      "\n            <img class=\"preview__image\" src=\"" ++ book.image ++ "\" />" ++
      "\n            <div class=\"preview__info\">" ++
      "\n                <h3 class=\"preview__title\">" ++ book.title ++ "</h3>" ++
      "\n                <div class=\"preview__author\">" ++ env.authors book.author ++
        "</div>" ++
      "\n            </div>" ++
      "\n        " }

/-- `renderPreviewList(container, books, page, booksPerPage)`: the container
is emptied, then receives one element for each book of
`books.slice(0, booksPerPage * page)`. -/
def renderPreviewList (env : Env) (dom : Dom) (books : List Book)
    (page booksPerPage : Nat) : Dom :=
  let cleared : List Element := []
  let itemsToShow := books.take (booksPerPage * page)
  let fragment := itemsToShow.foldl (fun acc book => acc ++ [createPreviewElement env book]) []
  { dom with listItems := cleared ++ fragment }

/-- The constant `remaining` of `updateListButton`. -/
def remaining («matches» : List Book) (page booksPerPage : Nat) : Int :=
  max 0 ((«matches».length : Int) - (booksPerPage : Int) * (page : Int))

/-- The constant `buttonText` of `updateListButton`. -/
def buttonText («matches» : List Book) (page booksPerPage : Nat) : String :=
  if remaining «matches» page booksPerPage > 0 then
    "Show more (" ++ toString (remaining «matches» page booksPerPage) ++ ")"
  else "No more books"

/-- `updateListButton(button, matches, page, booksPerPage)` -/
def updateListButton (dom : Dom) («matches» : List Book) (page booksPerPage : Nat) : Dom :=
  { dom with
    listButtonHTML :=
      "<span>Show more</span><span class=\"list__remaining\">" ++
        buttonText «matches» page booksPerPage ++ "</span>"
    listButtonDisabled := decide (remaining «matches» page booksPerPage = 0) }

/-- `updateListDisplay` -/
def updateListDisplay (env : Env) (dom : Dom) («matches» : List Book)
    (page booksPerPage : Nat) : Dom :=
  updateListButton (renderPreviewList env dom «matches» page booksPerPage)
    «matches» page booksPerPage

/-! ## Theme -/

/-- `setTheme(theme)` -/
def setTheme (dom : Dom) (theme : String) : Dom :=
  let colorDark := if theme = "night" then "255, 255, 255" else "10, 10, 20"
  let colorLight := if theme = "night" then "10, 10, 20" else "255, 255, 255"
  { dom with colorDark := colorDark, colorLight := colorLight }

/-! ## `updateList` -/

set_option linter.unusedVariables false in
/-- `updateList(filters, matches, books, page, booksPerPage, ...)`.  The
assignments `page = 1` and `matches = result` write the function's own
parameters; the caller sees the document only. -/
def updateList (env : Env) (filters : Filters) («matches» books : List Book)
    (page booksPerPage : Nat) (dom : Dom) : Dom :=
  let result := filterResult env filters books
  let page := 1
  let «matches» := result
  let dom := renderPreviewList env dom «matches» page booksPerPage
  updateListButton dom «matches» page booksPerPage

/-! ## View state, `init` and the event handlers -/

/-- The variables `page` and `matches` of `init`, which its handlers close
over, and the document. -/
structure App where
  page : Nat
  «matches» : List Book
  dom : Dom

/-- The markup of one `<option>`. -/
def optionHTML (entry : String × String) : String :=
  "<option value=\"" ++ entry.1 ++ "\">" ++ entry.2 ++ "</option>"

/-- `init()`, run on the document `dom`; `prefersDark` is the outcome of
`window.matchMedia && window.matchMedia('(prefers-color-scheme: dark)').matches`. -/
def init (env : Env) (prefersDark : Bool) (dom : Dom) : App :=
  let page := 1
  let «matches» := env.books
  let dom := renderPreviewList env dom «matches» page env.BOOKS_PER_PAGE
  let dom := updateListButton dom «matches» page env.BOOKS_PER_PAGE
  let genreOptions := String.join (env.genreEntries.map optionHTML)
  let dom := { dom with
    searchGenresHTML := "<option value=\"any\">All Genres</option>" ++ genreOptions }
  let authorOptions := String.join (env.authorEntries.map optionHTML)
  let dom := { dom with
    searchAuthorsHTML := "<option value=\"any\">All Authors</option>" ++ authorOptions }
  let preferredTheme := if prefersDark then "night" else "day"
  let dom := setTheme dom preferredTheme
  let dom := updateListDisplay env dom «matches» page env.BOOKS_PER_PAGE
  { page := page, «matches» := «matches», dom := dom }

/-- The user events for which the script registers a handler. -/
inductive Event where
  /-- click on `[data-list-button]`; a browser delivers it only while the
  button is enabled, the handler itself does not read the flag -/
  | listButtonClick
  /-- submit of `[data-search-form]` with the given form data -/
  | searchSubmit (filters : Filters)
  /-- submit of `[data-settings-form]` with the given `theme` field -/
  | settingsSubmit (theme : String)
  /-- click on `[data-search-cancel]` -/
  | searchCancel
  /-- click on `[data-settings-cancel]` -/
  | settingsCancel
  /-- click on `[data-header-search]` -/
  | headerSearch
  /-- click on `[data-header-settings]` -/
  | headerSettings
  /-- click on `[data-list-close]` -/
  | listClose
  /-- click inside `[data-list-items]`; the argument is `dataset.preview` of
  `event.target.closest('.preview')`, or `none` when there is no such element -/
  | listItemsClick (preview : Option String)

/-- The click handler of `[data-list-button]` registered by `init`. -/
def onListButtonClick (env : Env) (s : App) : App :=
  let page := s.page + 1
  let dom := renderPreviewList env s.dom s.matches page env.BOOKS_PER_PAGE
  let dom := updateListButton dom s.matches page env.BOOKS_PER_PAGE
  { s with page := page, dom := dom }

/-- The submit handler of `[data-search-form]`.  `setupEventListeners` was
called with `matches` bound to `books`, and the callback passes that value,
`books` and the literal `1` to `updateList`. -/
def onSearchSubmit (env : Env) (filters : Filters) (s : App) : App :=
  let «matches» := env.books
  let dom := updateList env filters «matches» env.books 1 env.BOOKS_PER_PAGE s.dom
  { s with dom := { dom with searchOverlayOpen := false } }

/-- The submit handler of `[data-settings-form]`. -/
def onSettingsSubmit (theme : String) (s : App) : App :=
  let dom := setTheme s.dom theme
  { s with dom := { dom with settingsOverlayOpen := false } }

/-- The click handler of `[data-list-items]`. -/
def onListItemsClick (env : Env) (preview : Option String) (s : App) : App :=
  match preview with
  | none => s
  | some target =>
    match env.books.find? (fun book => book.id == target) with
    | some activeBook =>
      { s with dom := { s.dom with
          listActiveOpen := true
          listBlurSrc := activeBook.image
          listImageSrc := activeBook.image
          listTitle := activeBook.title
          listSubtitle :=
            env.authors activeBook.author ++ " (" ++
              env.getFullYear activeBook.published ++ ")"
          listDescription := activeBook.description } }
    | none => s

/-- The handler that runs for an event. -/
def handle (env : Env) (s : App) : Event → App
  | .listButtonClick => onListButtonClick env s
  | .searchSubmit filters => onSearchSubmit env filters s
  | .settingsSubmit theme => onSettingsSubmit theme s
  | .searchCancel => { s with dom := { s.dom with searchOverlayOpen := false } }
  | .settingsCancel => { s with dom := { s.dom with settingsOverlayOpen := false } }
  | .headerSearch => { s with dom := { s.dom with searchOverlayOpen := true } }
  | .headerSettings => { s with dom := { s.dom with settingsOverlayOpen := true } }
  | .listClose => { s with dom := { s.dom with listActiveOpen := false } }
  | .listItemsClick preview => onListItemsClick env preview s

/-- The state after `init` and a sequence of events. -/
def run (env : Env) (prefersDark : Bool) (dom : Dom) (events : List Event) : App :=
  events.foldl (handle env) (init env prefersDark dom)

/-! ## Concrete data used in the examples -/

/-- A document before `init` has run. -/
def emptyDom : Dom :=
  { listItems := [], listButtonHTML := "", listButtonDisabled := false,
    searchGenresHTML := "", searchAuthorsHTML := "", searchOverlayOpen := false,
    settingsOverlayOpen := false, listActiveOpen := false, listBlurSrc := "",
    listImageSrc := "", listTitle := "", listSubtitle := "", listDescription := "",
    colorDark := "", colorLight := "" }

/-- A sample book. -/
def dune : Book :=
  { id := "b-dune", author := "herbert", image := "dune.jpg", title := "Dune",
    description := "Arrakis.", published := "1965-08-01", genres := ["scifi"] }

/-- A sample book. -/
def duneMessiah : Book :=
  { id := "b-messiah", author := "herbert", image := "messiah.jpg", title := "Dune Messiah",
    description := "Twelve years on.", published := "1969-10-15", genres := ["scifi"] }

/-- A sample book. -/
def foundation : Book :=
  { id := "b-foundation", author := "asimov", image := "foundation.jpg",
    title := "Foundation", description := "Terminus.", published := "1951-06-01",
    genres := ["scifi", "classic"] }

/-- A sample environment over the given books and page size; all its text is
ASCII, where `asciiLower` is `toLowerCase`. -/
def sampleEnv (books : List Book) (booksPerPage : Nat) : Env :=
  { books := books
    authors := fun id => if id = "herbert" then "Frank Herbert" else
      if id = "asimov" then "Isaac Asimov" else "undefined"
    BOOKS_PER_PAGE := booksPerPage
    toLowerCase := asciiLower
    getFullYear := fun published => ⟨published.data.take 4⟩
    genreEntries := [("scifi", "Science Fiction"), ("classic", "Classics")]
    authorEntries := [("herbert", "Frank Herbert"), ("asimov", "Isaac Asimov")] }

/-- A dataset of three books with one book a page. -/
def threeBooks : Env := sampleEnv [foundation, dune, duneMessiah] 1

/-- Five results, for the examples with page size 2. -/
def fiveResults : List Book := [dune, duneMessiah, foundation, dune, foundation]

/-- The match condition in the words of the specification: the title filter
is empty or the lower-cased title contains the lower-cased filter, the author
filter is "any" or the book's author, the genre filter is "any" or one of the
book's genres.  It is compared with `filterCallback`, which is the code. -/
def specMatch (env : Env) (filters : Filters) (book : Book) : Bool :=
  (filters.title == "" ||
      includes (env.toLowerCase book.title) (env.toLowerCase filters.title)) &&
    (filters.author == "any" || filters.author == book.author) &&
    (filters.genre == "any" || book.genres.contains filters.genre)

/-- The invariant of the view state: `matches` is the dataset, and the list
shows the elements of a subsequence of the dataset. -/
def ViewInv (env : Env) (s : App) : Prop :=
  s.matches = env.books ∧
    ∃ m : List Book, m.Sublist env.books ∧ s.dom.listItems = m.map (createPreviewElement env)

/-! ## Lemmas on the string functions -/

theorem startsWithChars_iff (hay needle : List Char) :
    startsWithChars hay needle = true ↔ ∃ s, hay = needle ++ s := by
  induction needle generalizing hay with
  | nil => simp [startsWithChars]
  | cons n ns ih =>
    cases hay with
    | nil => simp [startsWithChars]
    | cons h hs =>
      simp only [startsWithChars, Bool.and_eq_true, beq_iff_eq, ih, List.cons_append,
        List.cons.injEq]
      constructor
      · rintro ⟨rfl, s, rfl⟩
        exact ⟨s, rfl, rfl⟩
      · rintro ⟨s, rfl, rfl⟩
        exact ⟨rfl, s, rfl⟩

theorem includesChars_iff (hay needle : List Char) :
    includesChars hay needle = true ↔ ∃ p s, hay = p ++ needle ++ s := by
  induction hay with
  | nil =>
    simp only [includesChars, List.isEmpty_iff]
    constructor
    · rintro rfl
      exact ⟨[], [], rfl⟩
    · rintro ⟨p, s, h⟩
      have h2 := congrArg List.length h
      simp only [List.length_nil, List.length_append] at h2
      exact List.length_eq_zero.mp (by omega)
  | cons h hs ih =>
    simp only [includesChars, Bool.or_eq_true, startsWithChars_iff, ih]
    constructor
    · rintro (⟨s, hs1⟩ | ⟨p, s, hs1⟩)
      · exact ⟨[], s, by simpa using hs1⟩
      · exact ⟨h :: p, s, by simp [hs1]⟩
    · rintro ⟨p, s, hps⟩
      cases p with
      | nil => exact Or.inl ⟨s, by simpa using hps⟩
      | cons q qs =>
        simp only [List.cons_append, List.cons.injEq] at hps
        exact Or.inr ⟨qs, s, by simpa using hps.2⟩

theorem dropWhile_eq_nil_iff_all (p : Char → Bool) (cs : List Char) :
    cs.dropWhile p = [] ↔ ∀ c ∈ cs, p c = true := by
  induction cs with
  | nil => simp
  | cons c cs ih =>
    by_cases hc : p c = true
    · simp [List.dropWhile, hc, ih]
    · simp [List.dropWhile, hc]

theorem dropWhile_head_not (p : Char → Bool) (cs : List Char) (c : Char) (rest : List Char)
    (h : cs.dropWhile p = c :: rest) : p c = false := by
  induction cs with
  | nil => simp at h
  | cons d ds ih =>
    by_cases hd : p d = true
    · simp only [List.dropWhile, hd] at h
      exact ih h
    · simp only [List.dropWhile, hd] at h
      simp only [List.cons.injEq] at h
      simpa [h.1] using hd

theorem trimChars_eq_nil_iff (cs : List Char) :
    trimChars cs = [] ↔ ∀ c ∈ cs, isTrimChar c = true := by
  unfold trimChars
  rw [List.reverse_eq_nil_iff, dropWhile_eq_nil_iff_all]
  constructor
  · intro h
    cases hd : cs.dropWhile isTrimChar with
    | nil => exact (dropWhile_eq_nil_iff_all _ _).mp hd
    | cons c rest =>
      have h1 := dropWhile_head_not _ _ _ _ hd
      have h2 := h c (by simp [hd])
      simp [h1] at h2
  · intro h
    rw [(dropWhile_eq_nil_iff_all _ _).mpr h]
    simp

theorem trim_eq_empty_iff (s : String) :
    trim s = "" ↔ ∀ c ∈ s.data, isTrimChar c = true := by
  rw [← trimChars_eq_nil_iff]
  unfold trim
  constructor
  · intro h
    simpa using congrArg String.data h
  · intro h
    rw [h]

theorem includes_iff (hay needle : String) :
    includes hay needle = true ↔ ∃ p s, hay.data = p ++ needle.data ++ s :=
  includesChars_iff _ _

/-! ## Lemmas on the filter -/

theorem genreLoop_iff (genre : String) (genres : List String) (m : Bool) :
    genreLoop genre genres m = true ↔ m = true ∨ genre ∈ genres := by
  induction genres generalizing m with
  | nil => simp [genreLoop]
  | cons g gs ih =>
    cases m with
    | true => simp [genreLoop]
    | false =>
      simp only [genreLoop, Bool.false_eq_true, if_false, ih, List.mem_cons, false_or]
      by_cases hg : g = genre
      · simp [hg]
      · have hg2 : ¬ genre = g := fun h => hg h.symm
        simp [hg, hg2]

theorem filterCallback_iff (env : Env) (filters : Filters) (book : Book) :
    filterCallback env filters book = true ↔
      ((∀ c ∈ filters.title.data, isTrimChar c = true) ∨
        ∃ p s, (env.toLowerCase book.title).data =
          p ++ (env.toLowerCase filters.title).data ++ s) ∧
      (filters.author = "any" ∨ book.author = filters.author) ∧
      (filters.genre = "any" ∨ filters.genre ∈ book.genres) := by
  simp only [filterCallback, Bool.and_eq_true, Bool.or_eq_true, beq_iff_eq, genreLoop_iff,
    trim_eq_empty_iff, includes_iff, and_assoc]

/-! ## Lemmas on rendering -/

theorem foldl_append_singleton {α β : Type} (f : α → β) (l : List α) (init : List β) :
    l.foldl (fun acc a => acc ++ [f a]) init = init ++ l.map f := by
  induction l generalizing init with
  | nil => simp
  | cons a as ih => simp [ih]

theorem renderPreviewList_listItems (env : Env) (dom : Dom) (books : List Book)
    (page booksPerPage : Nat) :
    (renderPreviewList env dom books page booksPerPage).listItems =
      (books.take (booksPerPage * page)).map (createPreviewElement env) := by
  simp [renderPreviewList, foldl_append_singleton]

theorem remaining_eq_natSub («matches» : List Book) (page booksPerPage : Nat) :
    remaining «matches» page booksPerPage =
      ((«matches».length - booksPerPage * page : Nat) : Int) := by
  unfold remaining
  omega

theorem remaining_eq_zero_iff («matches» : List Book) (page booksPerPage : Nat) :
    remaining «matches» page booksPerPage = 0 ↔ «matches».length ≤ booksPerPage * page := by
  rw [remaining_eq_natSub]
  omega

/-! ## The filter of `updateList` (C1) -/

/-- C1, at a concrete input: with the title filter " " (one space), author
"any" and genre "any", `updateList` keeps the book titled "Dune", although the
title filter is not empty and "dune" does not contain a space. -/
theorem C1_whitespace_title_counterexample :
    dune ∈ filterResult (sampleEnv [dune] 1) ⟨" ", "any", "any"⟩ [dune] ∧
      specMatch (sampleEnv [dune] 1) ⟨" ", "any", "any"⟩ dune = false := by
  decide

/-- C1, amended: a book is in the result of `updateList` exactly when it is a
book of the dataset and (the title filter consists of white space only, the
empty filter included, or the lower-cased title contains the lower-cased title
filter as a contiguous run) and (the author filter is "any" or equals the
book's author) and (the genre filter is "any" or is one of the book's genres).
With the title filter "dune" the book "Dune" is kept and "Foundation" is
dropped. -/
theorem C1_filter_membership :
    (∀ (env : Env) (filters : Filters) (books : List Book) (book : Book),
      book ∈ filterResult env filters books ↔
        book ∈ books ∧
        ((∀ c ∈ filters.title.data, isTrimChar c = true) ∨
          ∃ p s, (env.toLowerCase book.title).data =
            p ++ (env.toLowerCase filters.title).data ++ s) ∧
        (filters.author = "any" ∨ book.author = filters.author) ∧
        (filters.genre = "any" ∨ filters.genre ∈ book.genres)) ∧
    filterResult (sampleEnv [dune, foundation] 1) ⟨"dune", "any", "any"⟩ [dune, foundation] =
      [dune] := by
  refine ⟨?_, by decide⟩
  intro env filters books book
  simp only [filterResult, List.mem_filter, filterCallback_iff]

/-! ## The load-more control (C4, C5, C10) and the list (C6) -/

/-- C4: `updateListButton` computes `remaining = max(0, |results| - page*pageSize)`,
which is the truncated difference of the two naturals, and disables the
control exactly when `remaining` is 0, that is when
`|results| <= page*pageSize`.  With 5 results and page size 2, page 1 leaves 3
and an enabled control, page 3 leaves 0 and a disabled control. -/
theorem C4_remaining_and_disabled :
    (∀ (dom : Dom) (results : List Book) (page pageSize : Nat),
      remaining results page pageSize =
          max 0 ((results.length : Int) - (page : Int) * (pageSize : Int)) ∧
        remaining results page pageSize = ((results.length - page * pageSize : Nat) : Int) ∧
        ((updateListButton dom results page pageSize).listButtonDisabled = true ↔
          remaining results page pageSize = 0) ∧
        (remaining results page pageSize = 0 ↔ results.length ≤ page * pageSize)) ∧
    (remaining fiveResults 1 2 = 3 ∧
      (updateListButton emptyDom fiveResults 1 2).listButtonDisabled = false) ∧
    (remaining fiveResults 3 2 = 0 ∧
      (updateListButton emptyDom fiveResults 3 2).listButtonDisabled = true) := by
  refine ⟨?_, by decide, by decide⟩
  intro dom results page pageSize
  refine ⟨?_, ?_, ?_, ?_⟩
  · unfold remaining
    rw [mul_comm]
  · rw [remaining_eq_natSub, mul_comm]
  · simp [updateListButton]
  · rw [remaining_eq_zero_iff, mul_comm]

/-- C5, evaluated on the code: with 5 results and page size 2, the text of the
button after `updateListButton` is "Show moreShow more (3)" at page 1 and
"Show moreNo more books" at page 3; the text that the claim describes is the
content of the second `span` only. -/
theorem C5_button_text_has_leading_span :
    textContent (updateListButton emptyDom fiveResults 1 2).listButtonHTML =
        "Show moreShow more (3)" ∧
      textContent (updateListButton emptyDom fiveResults 3 2).listButtonHTML =
        "Show moreNo more books" ∧
      buttonText fiveResults 1 2 = "Show more (3)" ∧
      buttonText fiveResults 3 2 = "No more books" ∧
      (∀ (dom : Dom) (results : List Book) (page pageSize : Nat),
        (updateListButton dom results page pageSize).listButtonHTML =
          "<span>Show more</span><span class=\"list__remaining\">" ++
            buttonText results page pageSize ++ "</span>") := by
  refine ⟨by decide, by decide, by decide, by decide, ?_⟩
  intro dom results page pageSize
  rfl

/-- C6: `renderPreviewList` replaces the content of the container, whatever
it was, by the elements that `createPreviewElement` builds from the first
`min(N, page*P)` results, in order, each tagged with the id of its book; with
page 1 these are `min(N, P)` elements, and there are never more than `N`. -/
theorem C6_render_page_bounded_slice :
    ∀ (env : Env) (dom dom2 : Dom) (results : List Book) (page pageSize : Nat),
      (renderPreviewList env dom results page pageSize).listItems =
          (results.take (page * pageSize)).map (createPreviewElement env) ∧
        (renderPreviewList env dom results page pageSize).listItems =
          (renderPreviewList env dom2 results page pageSize).listItems ∧
        (renderPreviewList env dom results page pageSize).listItems.length =
          min results.length (page * pageSize) ∧
        (∀ i, i < min results.length (page * pageSize) →
          ∃ book, results[i]? = some book ∧
            (renderPreviewList env dom results page pageSize).listItems[i]? =
              some (createPreviewElement env book) ∧
            (createPreviewElement env book).dataPreview = book.id) ∧
        (renderPreviewList env dom results 1 pageSize).listItems.length =
          min results.length pageSize ∧
        (renderPreviewList env dom results page pageSize).listItems.length ≤
          results.length := by
  intro env dom dom2 results page pageSize
  have hmin : min (pageSize * page) results.length = min results.length (page * pageSize) := by
    rw [mul_comm, min_comm]
  refine ⟨?_, ?_, ?_, ?_, ?_, ?_⟩
  · rw [renderPreviewList_listItems, mul_comm]
  · rw [renderPreviewList_listItems, renderPreviewList_listItems]
  · rw [renderPreviewList_listItems, List.length_map, List.length_take, hmin]
  · intro i hi
    have hi1 : i < results.length := lt_of_lt_of_le hi (min_le_left _ _)
    have hi2 : i < pageSize * page := by
      rw [mul_comm]
      exact lt_of_lt_of_le hi (min_le_right _ _)
    refine ⟨results[i], List.getElem?_eq_getElem hi1, ?_, rfl⟩
    rw [renderPreviewList_listItems, List.getElem?_map, List.getElem?_take_of_lt hi2,
      List.getElem?_eq_getElem hi1]
    rfl
  · rw [renderPreviewList_listItems, List.length_map, List.length_take, mul_one, min_comm]
  · rw [renderPreviewList_listItems, List.length_map, List.length_take]
    exact min_le_right _ _

/-- C10: the control set by `updateListButton` is disabled exactly when
`renderPreviewList`, called with the same results, page and page size, renders
every result; when it is enabled fewer elements than results are rendered; and
the list of page `page + 1` is the list of page `page` followed by the
elements of the next `min(pageSize, remaining)` results. -/
theorem C10_disabled_iff_all_rendered :
    ∀ (env : Env) (dom : Dom) (results : List Book) (page pageSize : Nat),
      ((updateListButton dom results page pageSize).listButtonDisabled = true ↔
          (renderPreviewList env dom results page pageSize).listItems =
            results.map (createPreviewElement env)) ∧
        ((updateListButton dom results page pageSize).listButtonDisabled = false →
          (renderPreviewList env dom results page pageSize).listItems.length <
            results.length) ∧
        (renderPreviewList env dom results (page + 1) pageSize).listItems =
          (renderPreviewList env dom results page pageSize).listItems ++
            (((results.drop (pageSize * page)).take pageSize).map
              (createPreviewElement env)) ∧
        ((results.drop (pageSize * page)).take pageSize).length =
          min pageSize (remaining results page pageSize).toNat := by
  intro env dom results page pageSize
  have hdis : (updateListButton dom results page pageSize).listButtonDisabled =
      decide (remaining results page pageSize = 0) := rfl
  refine ⟨?_, ?_, ?_, ?_⟩
  · rw [hdis, decide_eq_true_iff, remaining_eq_zero_iff, renderPreviewList_listItems]
    constructor
    · intro h
      rw [List.take_of_length_le h]
    · intro h
      have h2 := congrArg List.length h
      simp only [List.length_map, List.length_take] at h2
      omega
  · rw [hdis, decide_eq_false_iff_not, remaining_eq_zero_iff, renderPreviewList_listItems,
      List.length_map, List.length_take]
    intro h
    omega
  · rw [renderPreviewList_listItems, renderPreviewList_listItems, ← List.map_append,
      Nat.mul_succ, List.take_add]
  · rw [List.length_take, List.length_drop, remaining_eq_natSub]
    simp

/-! ## Theme (C7) -/

/-- C7: `setTheme("night")` gives each of `--color-dark` and `--color-light`
the value that `setTheme("day")` gives the other, the two values differ, and
from any document `setTheme("night")` followed by `setTheme("day")` leaves the
document as `setTheme("day")` alone does. -/
theorem C7_theme_swap_and_restore :
    ∀ (dom : Dom),
      (setTheme dom "night").colorDark = (setTheme dom "day").colorLight ∧
        (setTheme dom "night").colorLight = (setTheme dom "day").colorDark ∧
        (setTheme dom "day").colorDark ≠ (setTheme dom "day").colorLight ∧
        setTheme (setTheme dom "night") "day" = setTheme dom "day" ∧
        (setTheme (setTheme dom "night") "day").colorDark = "10, 10, 20" ∧
        (setTheme (setTheme dom "night") "day").colorLight = "255, 255, 255" := by
  intro dom
  have hd : ¬ ("day" = "night") := by decide
  refine ⟨?_, ?_, ?_, ?_, ?_, ?_⟩
  · simp [setTheme]
  · simp [setTheme]
  · simp only [setTheme, hd, if_false]
    decide
  · simp [setTheme]
  · simp [setTheme]
  · simp [setTheme]

/-! ## The detail panel (C8) -/

theorem find?_first_match (p : Book → Bool) (pre post : List Book) (b : Book)
    (hpre : ∀ x ∈ pre, p x = false) (hb : p b = true) :
    (pre ++ b :: post).find? p = some b := by
  induction pre with
  | nil => simp [List.find?, hb]
  | cons a as ih =>
    have ha : p a = false := hpre a (by simp)
    simp only [List.cons_append, List.find?, ha]
    exact ih (fun x hx => hpre x (by simp [hx]))

theorem exists_first_match (id : String) (books : List Book)
    (h : ∃ x ∈ books, x.id = id) :
    ∃ pre b post, books = pre ++ b :: post ∧ b.id = id ∧ ∀ x ∈ pre, x.id ≠ id := by
  induction books with
  | nil => simp at h
  | cons a as ih =>
    by_cases ha : a.id = id
    · exact ⟨[], a, as, rfl, ha, by simp⟩
    · obtain ⟨x, hx, hxid⟩ := h
      have hxas : x ∈ as := by
        rcases List.mem_cons.mp hx with rfl | hx2
        · exact absurd hxid ha
        · exact hx2
      obtain ⟨pre, b, post, hbooks, hb, hpre⟩ := ih ⟨x, hxas, hxid⟩
      refine ⟨a :: pre, b, post, by simp [hbooks], hb, ?_⟩
      intro y hy
      rcases List.mem_cons.mp hy with rfl | hy2
      · exact ha
      · exact hpre y hy2

/-- C8: when some book of the dataset has the clicked identifier, the click
handler of the list takes the first such book of the full dataset, opens the
detail panel and sets its two images, title, subtitle and description from
that book, leaving the rest of the state as it was; when no book of the
dataset has the identifier, the handler leaves the whole state unchanged. -/
theorem C8_list_item_click :
    ∀ (env : Env) (s : App) (id : String),
      ((∃ x ∈ env.books, x.id = id) →
        ∃ pre b post, env.books = pre ++ b :: post ∧ b.id = id ∧ (∀ x ∈ pre, x.id ≠ id) ∧
          handle env s (.listItemsClick (some id)) =
            { s with dom := { s.dom with
                listActiveOpen := true
                listBlurSrc := b.image
                listImageSrc := b.image
                listTitle := b.title
                listSubtitle :=
                  env.authors b.author ++ " (" ++ env.getFullYear b.published ++ ")"
                listDescription := b.description } }) ∧
      ((∀ x ∈ env.books, x.id ≠ id) → handle env s (.listItemsClick (some id)) = s) := by
  intro env s id
  constructor
  · intro h
    obtain ⟨pre, b, post, hbooks, hb, hpre⟩ := exists_first_match id env.books h
    refine ⟨pre, b, post, hbooks, hb, hpre, ?_⟩
    have hfind : env.books.find? (fun book => book.id == id) = some b := by
      rw [hbooks]
      exact find?_first_match _ pre post b (fun x hx => by simpa using hpre x hx)
        (by simpa using hb)
    simp only [handle, onListItemsClick, hfind]
  · intro h
    have hfind : env.books.find? (fun book => book.id == id) = none := by
      rw [List.find?_eq_none]
      intro x hx
      simpa using h x hx
    simp only [handle, onListItemsClick, hfind]

/-! ## The view state across events (C2, C3, C9) -/

theorem updateListButton_listItems (dom : Dom) («matches» : List Book)
    (page booksPerPage : Nat) :
    (updateListButton dom «matches» page booksPerPage).listItems = dom.listItems := rfl

theorem updateList_listItems (env : Env) (filters : Filters) («matches» books : List Book)
    (page booksPerPage : Nat) (dom : Dom) :
    (updateList env filters «matches» books page booksPerPage dom).listItems =
      ((filterResult env filters books).take (booksPerPage * 1)).map
        (createPreviewElement env) := by
  unfold updateList
  simp only [updateListButton_listItems, renderPreviewList_listItems]

theorem viewInv_init (env : Env) (prefersDark : Bool) (dom : Dom) :
    ViewInv env (init env prefersDark dom) := by
  refine ⟨rfl, env.books.take (env.BOOKS_PER_PAGE * 1), List.take_sublist _ _, ?_⟩
  simp only [init, updateListDisplay, updateListButton_listItems, renderPreviewList_listItems]

theorem viewInv_handle (env : Env) (s : App) (e : Event) (h : ViewInv env s) :
    ViewInv env (handle env s e) := by
  obtain ⟨hm, m, hsub, hitems⟩ := h
  cases e with
  | listButtonClick =>
    refine ⟨hm, s.matches.take (env.BOOKS_PER_PAGE * (s.page + 1)), ?_, ?_⟩
    · rw [hm]
      exact List.take_sublist _ _
    · simp only [handle, onListButtonClick, updateListButton_listItems,
        renderPreviewList_listItems]
  | searchSubmit filters =>
    refine ⟨hm, (filterResult env filters env.books).take (env.BOOKS_PER_PAGE * 1), ?_, ?_⟩
    · exact (List.take_sublist _ _).trans (List.filter_sublist _)
    · simp only [handle, onSearchSubmit, updateList_listItems]
  | settingsSubmit theme => exact ⟨hm, m, hsub, hitems⟩
  | searchCancel => exact ⟨hm, m, hsub, hitems⟩
  | settingsCancel => exact ⟨hm, m, hsub, hitems⟩
  | headerSearch => exact ⟨hm, m, hsub, hitems⟩
  | headerSettings => exact ⟨hm, m, hsub, hitems⟩
  | listClose => exact ⟨hm, m, hsub, hitems⟩
  | listItemsClick preview =>
    refine ⟨?_, m, hsub, ?_⟩
    · simp only [handle, onListItemsClick]
      split
      · exact hm
      · split <;> exact hm
    · simp only [handle, onListItemsClick]
      split
      · exact hitems
      · split <;> exact hitems

theorem viewInv_foldl (env : Env) (events : List Event) (s : App) (h : ViewInv env s) :
    ViewInv env (events.foldl (handle env) s) := by
  induction events generalizing s with
  | nil => exact h
  | cons e es ih => exact ih _ (viewInv_handle env s e h)

/-- C9: the result that `updateList` computes is a subsequence of the dataset
in dataset order and is no longer than the dataset; and after `init` and any
sequence of events, the view state's `matches` is a subsequence of the dataset
and the list shows the elements of a subsequence of the dataset. -/
theorem C9_results_are_subsequences :
    (∀ (env : Env) (filters : Filters) (books : List Book),
      (filterResult env filters books).Sublist books ∧
        (filterResult env filters books).length ≤ books.length) ∧
    (∀ (env : Env) (prefersDark : Bool) (dom : Dom) (events : List Event),
      (run env prefersDark dom events).matches.Sublist env.books ∧
        ∃ m : List Book, m.Sublist env.books ∧
          (run env prefersDark dom events).dom.listItems =
            m.map (createPreviewElement env)) := by
  constructor
  · intro env filters books
    exact ⟨List.filter_sublist _, List.length_filter_le _ _⟩
  · intro env prefersDark dom events
    obtain ⟨hm, hlist⟩ := viewInv_foldl env events _ (viewInv_init env prefersDark dom)
    refine ⟨?_, hlist⟩
    unfold run
    rw [hm]

/-- C2, evaluated on the code: the submit handler of the search form leaves
the view state's `page` (and `matches`) as it found them.  On three books with
one book a page, after one click on the button and a submit with no filter the
page is 2, the button is enabled, and the next click renders with page 3: all
three books and a disabled button. -/
theorem C2_submit_leaves_page :
    (∀ (env : Env) (filters : Filters) (s : App),
      (handle env s (.searchSubmit filters)).page = s.page) ∧
    (run threeBooks false emptyDom []).dom.listButtonDisabled = false ∧
    (run threeBooks false emptyDom
        [.listButtonClick, .searchSubmit ⟨"", "any", "any"⟩]).page = 2 ∧
    (run threeBooks false emptyDom
        [.listButtonClick, .searchSubmit ⟨"", "any", "any"⟩]).dom.listButtonDisabled = false ∧
    (run threeBooks false emptyDom
        [.listButtonClick, .searchSubmit ⟨"", "any", "any"⟩, .listButtonClick]).page = 3 ∧
    (run threeBooks false emptyDom
        [.listButtonClick, .searchSubmit ⟨"", "any", "any"⟩,
          .listButtonClick]).dom.listItems.length = 3 ∧
    (run threeBooks false emptyDom
        [.listButtonClick, .searchSubmit ⟨"", "any", "any"⟩,
          .listButtonClick]).dom.listButtonDisabled = true := by
  refine ⟨fun _ _ _ => rfl, by decide, by decide, by decide, by decide, by decide, by decide⟩

set_option maxRecDepth 16000 in
/-- C3, evaluated on the code: the submit handler of the search form leaves
the view state's `matches` as the full dataset.  On the books "Foundation",
"Dune", "Dune Messiah" with one book a page and the title filter "dune", the
filtered result is "Dune", "Dune Messiah" and the button stays enabled; the
next click shows "Foundation" and "Dune", the first two books of the dataset,
and a button that counts 3 - 2 = 1 remaining book. -/
theorem C3_click_after_submit_uses_dataset :
    (∀ (env : Env) (filters : Filters) (s : App),
      (handle env s (.searchSubmit filters)).matches = s.matches) ∧
    filterResult threeBooks ⟨"dune", "any", "any"⟩ threeBooks.books = [dune, duneMessiah] ∧
    (run threeBooks false emptyDom
        [.searchSubmit ⟨"dune", "any", "any"⟩]).dom.listItems =
      [createPreviewElement threeBooks dune] ∧
    (run threeBooks false emptyDom
        [.searchSubmit ⟨"dune", "any", "any"⟩]).dom.listButtonDisabled = false ∧
    (run threeBooks false emptyDom
        [.searchSubmit ⟨"dune", "any", "any"⟩, .listButtonClick]).matches =
      [foundation, dune, duneMessiah] ∧
    (run threeBooks false emptyDom
        [.searchSubmit ⟨"dune", "any", "any"⟩, .listButtonClick]).dom.listItems =
      [createPreviewElement threeBooks foundation, createPreviewElement threeBooks dune] ∧
    (run threeBooks false emptyDom
        [.searchSubmit ⟨"dune", "any", "any"⟩, .listButtonClick]).dom.listButtonHTML =
      "<span>Show more</span><span class=\"list__remaining\">Show more (1)</span>" ∧
    (run threeBooks false emptyDom
        [.searchSubmit ⟨"dune", "any", "any"⟩, .listButtonClick]).dom.listButtonDisabled =
      false := by
  refine ⟨fun _ _ _ => rfl, by decide, by decide, by decide, by decide, by decide, by decide,
    by decide⟩

end BookConnect
